import Mathlib

set_option maxRecDepth 8192

/-!
Verification development for `docs/sphinx/extract_from_cpp.py`, a line-oriented
extractor that converts C++ header comments into rst.  Strings are embedded as
`List Char`; each definition below is a direct translation of the corresponding
Python function or statement block, with the source's names kept where Lean
allows it.  Fallible operations (a list indexing that can raise `IndexError`)
return `Option`.
-/

/-- Character-list view of a string literal (Python `str` is modelled as `List Char`). -/
def chars (s : String) : List Char := s.data

/-- Left-brace character, written by code point. -/
def lbrace : Char := Char.ofNat 123

/-- Whitespace in the sense of Python `str.strip`/`rstrip`
    (space, tab, newline, carriage return, vertical tab, form feed). -/
def pySpace (c : Char) : Bool :=
  (c == ' ') || (c == '\t') || (c == '\n') || (c == '\r') ||
  (c == Char.ofNat 11) || (c == Char.ofNat 12)

/-- Python `str.lstrip()`. -/
def pyLStrip (l : List Char) : List Char := l.dropWhile pySpace

/-- Python `str.rstrip()`. -/
def pyRStrip (l : List Char) : List Char := (l.reverse.dropWhile pySpace).reverse

/-- Python `str.strip()`. -/
def pyStrip (l : List Char) : List Char := pyRStrip (pyLStrip l)

/-- Python `str.startswith(p)`. -/
def pyStartsWith (p l : List Char) : Bool := p.isPrefixOf l

/-- Python `str.endswith(p)`. -/
def pyEndsWith (p l : List Char) : Bool := p.isSuffixOf l

/-- Python substring containment `p in l`. -/
def containsSub (p l : List Char) : Bool := l.tails.any fun t => p.isPrefixOf t

/-- Fuelled worker for `pyReplace`; fuel bounds the number of scanned positions,
    and `fuel = l.length` always suffices because each step consumes at least one
    character. -/
def pyReplaceFuel (p r : List Char) : Nat → List Char → List Char
  | 0, l => l
  | _ + 1, [] => []
  | n + 1, c :: cs =>
    if p ≠ [] ∧ p.isPrefixOf (c :: cs) = true then
      r ++ pyReplaceFuel p r n (cs.drop (p.length - 1))
    else
      c :: pyReplaceFuel p r n cs

/-- Python `str.replace(p, r)`: replace every left-to-right non-overlapping
    occurrence of `p` (all patterns used by the source are nonempty). -/
def pyReplace (p r l : List Char) : List Char := pyReplaceFuel p r l.length l

/-- Python slicing `l[i:]` with an integer index (negative indices count from the end). -/
def pySliceFrom (i : Int) (l : List Char) : List Char :=
  if 0 ≤ i then l.drop i.toNat else l.drop (l.length - (-i).toNat)

/-- Python `' ' * i` (empty for a non-positive count). -/
def spacesI (i : Int) : List Char := List.replicate i.toNat ' '

/-- Text before the first occurrence of character `c` (used for `partition` whose
    separator is a single character and is known to occur). -/
def takeUntilChar (c : Char) (l : List Char) : List Char := l.takeWhile (fun d => d ≠ c)

/-- Python `l.partition(p)` restricted to the two components the source uses:
    the text before the first occurrence of `p` and the text after it
    (`(l, [])` when `p` does not occur, matching `partition`'s `(l, '', '')`). -/
def partAfterSub (p : List Char) : List Char → List Char × List Char
  | [] => ([], [])
  | c :: cs =>
    if p ≠ [] ∧ p.isPrefixOf (c :: cs) = true then
      ([], cs.drop (p.length - 1))
    else
      let q := partAfterSub p cs
      (c :: q.1, q.2)

/-- Worker for `splitlines`. -/
def splitlinesAux (acc : List Char) : List Char → List (List Char)
  | [] => [acc.reverse]
  | c :: cs =>
    if c = '\n' then
      acc.reverse :: (if cs.isEmpty then [] else splitlinesAux [] cs)
    else
      splitlinesAux (c :: acc) cs

/-- Python `str.splitlines()` for text whose only line separator is `'\n'`
    (the only separator the source ever produces): no trailing empty piece for a
    final newline, and the empty text yields no pieces. -/
def splitlines (l : List Char) : List (List Char) :=
  if l.isEmpty then [] else splitlinesAux [] l

/-- Python `'\n'.join(ls)`. -/
def joinNl (ls : List (List Char)) : List Char := List.intercalate (chars ("\n")) ls

/-- Uppercase letter, regex class `[A-Z]`. -/
def isUpperRe (c : Char) : Bool := ('A' ≤ c) && (c ≤ 'Z')

/-- Regex class `[a-zA-Z0-9]`. -/
def isAlnumRe (c : Char) : Bool :=
  (('a' ≤ c) && (c ≤ 'z')) || (('A' ≤ c) && (c ≤ 'Z')) || (('0' ≤ c) && (c ≤ '9'))

/-- Regex class `[a-z_A-Z0-9]`. -/
def isIdentRe (c : Char) : Bool := isAlnumRe c || (c == '_')

/-- All remainders after matching `p+` (one or more characters satisfying `p`)
    at the head of the list; used to enumerate regex backtracking choices. -/
def suffixesAfterPlus (p : Char → Bool) : List Char → List (List Char)
  | [] => []
  | c :: cs => if p c = true then cs :: suffixesAfterPlus p cs else []

/-- Primitive-type keywords of the function regexes. -/
def typeKeywords : List (List Char) :=
  [chars ("int"), chars ("double"), chars ("bool"), chars ("void"), chars ("const")]

/-- Remainders after matching the regex group
    `([A-Z][a-zA-Z0-9]+|int|double|bool|void|const)` at the head of `s`. -/
def group1Matches (s : List Char) : List (List Char) :=
  (match s with
   | [] => []
   | c :: cs => if isUpperRe c = true then suffixesAfterPlus isAlnumRe cs else []) ++
  typeKeywords.filterMap fun w =>
    if w.isPrefixOf s = true then some (s.drop w.length) else none

/-- Remainders after matching `[\*&]{0,2}` at the head of `s` (zero, one or two
    characters from the class). -/
def afterQual (s : List Char) : List (List Char) :=
  s :: (match s with
        | [] => []
        | c :: cs =>
          if (c == '*') || (c == '&') then
            cs :: (match cs with
                   | [] => []
                   | d :: ds => if (d == '*') || (d == '&') then [ds] else [])
          else [])

/-- Remainders after matching, at the head of `s`, the shared front of both
    function regexes: type group, `[\*&]{0,2}`, a space, `[a-z_A-Z0-9]+`, `\(`. -/
def reCoreMatches (s : List Char) : List (List Char) :=
  (group1Matches s).flatMap fun r1 =>
    (afterQual r1).flatMap fun r2 =>
      match r2 with
      | ' ' :: r3 =>
        (suffixesAfterPlus isIdentRe r3).filterMap fun r4 =>
          match r4 with
          | '(' :: r5 => some r5
          | _ => none
      | _ => []

/-- Existence of a match for the regex tail `.*\).*[;\{]` in `r5` (the input
    lines contain no newline, so `.` is any character). -/
def closeThenTerm (r5 : List Char) : Bool :=
  r5.tails.any fun t =>
    match t with
    | ')' :: r6 =>
      r6.tails.any fun u =>
        match u with
        | c :: _ => (c == ';') || (c == lbrace)
        | [] => false
    | _ => false

/-- Python `function_re.search(l) is not None` for
    `([A-Z][a-zA-Z0-9]+|int|double|bool|void|const)[\*&]{0,2} [a-z_A-Z0-9]+\(.*\).*[;\{]`. -/
def function_re_search (l : List Char) : Bool :=
  l.tails.any fun s => (reCoreMatches s).any fun r5 => closeThenTerm r5

/-- Python `function_re_partial.search(l) is not None` (same pattern truncated
    after the opening parenthesis). -/
def function_re_open_search (l : List Char) : Bool :=
  l.tails.any fun s => !(reCoreMatches s).isEmpty

/-- Fixed verbatim remap table `special_cases` (lookup-or-identity). -/
def special_cases (l : List Char) : List Char :=
  if l = chars ("//  // is the planar centroid, which is simply the centroid of the ordinary") then
    chars ("// is the planar centroid, which is simply the centroid of the ordinary")
  else if l = chars ("// ----------------") then
    chars ("// ")
  else if l = chars ("//  (3) RobustCrossing(a,b,c,d) <= 0 if a==b or c==d") then
    chars ("//  (4) RobustCrossing(a,b,c,d) <= 0 if a==b or c==d")
  else if l = chars ("//  (3) If exactly one of a,b equals one of c,d, then exactly one of") then
    chars ("//  (4) If exactly one of a,b equals one of c,d, then exactly one of")
  else if l = chars ("// to be different than vertex(*next_vertex), so this will never result in") then
    chars ("// to be different than `vertex(*next_vertex)`, so this will never result in")
  else if l = chars ("// Return true if lng_.lo() > lng_.hi(), i.e. the rectangle crosses") then
    chars ("// Return true if `lng_.lo() > lng_.hi()`, i.e. the rectangle crosses")
  else l

namespace Formatter

/-- Step 1 of the comment formatter, `Formatter.strip_comment_tags`: six chained
    global replacements, innermost first, exactly in the source's order. -/
def strip_comment_tags (l : List Char) : List Char :=
  pyReplace (chars (" *")) []
    (pyReplace (chars (" * ")) []
      (pyReplace (chars ("/*")) []
        (pyReplace (chars ("/* ")) []
          (pyReplace (chars ("//")) []
            (pyReplace (chars ("// ")) [] l)))))

/-- State of `Formatter.detect_block`'s loop.  `rev` holds the `processed` list
    in reverse (most recent line first), which makes the source's negative
    indexing (`processed[-1]`, `[-2]`, `[-3]`) and `insert(-1, x)` direct. -/
structure DBState where
  inside_block : Bool
  inside_list : Bool
  rev : List (List Char)
deriving DecidableEq

/-- Python `processed.insert(-1, x)`: insert before the last element
    (`processed` is nonempty at every call site; on `[]` Python would give `[x]`). -/
def insertPenult (x : List Char) (rev : List (List Char)) : List (List Char) :=
  match rev with
  | [] => [x]
  | h :: t => h :: x :: t

/-- Python `len(processed) > 1 and processed[-2]` (a nonempty second-to-last line). -/
def penultFilled (rev : List (List Char)) : Bool :=
  match rev with
  | _ :: p :: _ => !p.isEmpty
  | _ => false

/-- Python `processed[-1] = '  ' + processed[-1]`. -/
def twoSpacesHead (rev : List (List Char)) : List (List Char) :=
  match rev with
  | [] => []
  | h :: t => (chars ("  ") ++ h) :: t

/-- List-continuation test while `inside_list`:
    `l.startswith(' ') or len(l) <= 1 or '. ' in l[:5] or ') ' in l[:5]`. -/
def detectListCont (l : List Char) : Bool :=
  pyStartsWith (chars (" ")) l || decide (l.length ≤ 1) ||
  containsSub (chars (". ")) (l.take 5) || containsSub (chars (") ")) (l.take 5)

/-- List-start test `l.startswith((' -', '-', ' 1.', '1.', ' (1)', '(1)'))`. -/
def isListStart (l : List Char) : Bool :=
  pyStartsWith (chars (" -")) l || pyStartsWith (chars ("-")) l ||
  pyStartsWith (chars (" 1.")) l || pyStartsWith (chars ("1.")) l ||
  pyStartsWith (chars (" (1)")) l || pyStartsWith (chars ("(1)")) l

/-- Code-block opening: optional blank separator (same guard as the source),
    then the `.. code-block:: cpp` marker, then a blank line — all inserted
    before the current (last) line. -/
def startBlockRev (rev : List (List Char)) : List (List Char) :=
  insertPenult []
    (insertPenult (chars (".. code-block:: cpp"))
      (if penultFilled rev = true then insertPenult [] rev else rev))

/-- Code-block half of the loop body (the `if inside_block: ... elif ...:` part).
    `none` models the `IndexError` that Python raises when the start condition
    evaluates `processed[-3]` with fewer than three processed lines. -/
def blockPart (ib : Bool) (rev : List (List Char)) (l : List Char) :
    Option (Bool × List (List Char)) :=
  if ib = true then
    if pyStartsWith (chars (" ")) l = true ∨ l.isEmpty = true ∨
        pyEndsWith (chars (";")) l = true then
      some (true, rev)
    else
      some (false, insertPenult [] rev)
  else if pyStartsWith (chars ("  ")) l = true then
    some (true, startBlockRev rev)
  else if pyEndsWith (chars (";")) l = true then
    match rev.get? 2 with
    | none => none
    | some p3 =>
      if pyEndsWith (chars (":")) p3 = true then
        some (true, startBlockRev rev)
      else if pyStartsWith (chars (" ")) l = true ∧ pyEndsWith (chars (";")) l = true then
        some (true, startBlockRev rev)
      else
        some (false, rev)
  else if pyStartsWith (chars (" ")) l = true ∧ pyEndsWith (chars (";")) l = true then
    some (true, startBlockRev rev)
  else
    some (false, rev)

/-- One iteration of `detect_block`'s loop over a line `l`. -/
def detectStep (st : DBState) (l : List Char) : Option DBState :=
  let rev0 := l :: st.rev
  if st.inside_list = true ∧ detectListCont l = true then
    some { st with rev := rev0 }
  else
    let rev1 := if st.inside_list = true then insertPenult [] rev0 else rev0
    if isListStart l = true then
      some { inside_block := st.inside_block, inside_list := true,
             rev := if penultFilled rev1 = true then insertPenult [] rev1 else rev1 }
    else
      match blockPart st.inside_block rev1 l with
      | none => none
      | some (ib, rev2) =>
        some { inside_block := ib, inside_list := false,
               rev := if ib = true ∧ pyStartsWith (chars ("  ")) l = false then
                        twoSpacesHead rev2
                      else rev2 }

/-- Folding `detectStep` over the lines. -/
def detectRun (st : DBState) : List (List Char) → Option DBState
  | [] => some st
  | l :: ls =>
    match detectStep st l with
    | none => none
    | some st1 => detectRun st1 ls

/-- Python `Formatter.detect_block(lines)`; `none` when the loop raises. -/
def detect_block (lines : List (List Char)) : Option (List (List Char)) :=
  (detectRun { inside_block := false, inside_list := false, rev := [] } lines).map
    fun st => st.rev.reverse

/-- Python `Formatter.comment(lines)`: strip markers, detect blocks, indent by
    two spaces and join with newlines. -/
def comment (lines : List (List Char)) : Option (List Char) :=
  (detect_block (lines.map strip_comment_tags)).map fun processed =>
    joinNl (processed.map fun l => chars ("  ") ++ l)

end Formatter

/-- Scan state of `extract_file`:
    indent level, cached comment lines, the partial-signature buffer
    (`partial_function` in the source) and the visibility flag. -/
structure ScanState where
  indent : Int
  cached_lines : List (List Char)
  pending_function : List Char
  is_private : Bool
deriving DecidableEq

/-- Initial scan state of `extract_file`. -/
def ScanState.init : ScanState :=
  { indent := 0, cached_lines := [], pending_function := [], is_private := false }

/-- Condition of `extract_file`'s indent-unwinding `while` loop:
    `len(line) > 1 and indent and not line.startswith(' ' * indent) and
     'public:' not in line and 'private:' not in line and 'protected:' not in line`. -/
def unwindCond (raw : List Char) (i : Int) : Prop :=
  1 < raw.length ∧ i ≠ 0 ∧ pyStartsWith (spacesI i) raw = false ∧
  containsSub (chars ("public:")) raw = false ∧
  containsSub (chars ("private:")) raw = false ∧
  containsSub (chars ("protected:")) raw = false

instance (raw : List Char) (i : Int) : Decidable (unwindCond raw i) := by
  unfold unwindCond; infer_instance

/-- Fuelled unwinding loop; the body runs only while the indent is positive, so
    `fuel = indent.toNat` always reaches the loop's natural exit. -/
def unwindAux (raw : List Char) : Nat → Int → Bool → Int × Bool
  | 0, i, p => (i, p)
  | n + 1, i, p =>
    if unwindCond raw i then unwindAux raw n (i - 2) false else (i, p)

/-- The indent-unwinding loop: `indent -= 2; is_private = False` while the
    condition holds. -/
def unwind (raw : List Char) (i : Int) (p : Bool) : Int × Bool :=
  unwindAux raw i.toNat i p

/-- Visibility update on the indent-sliced line: the two `if` statements testing
    `('rivate:', 'rotected:')` and `'ublic:'`. -/
def updateVisibility (line : List Char) (p : Bool) : Bool :=
  let p1 := if pyStartsWith (chars ("rivate:")) line = true ∨
               pyStartsWith (chars ("rotected:")) line = true then true else p
  if pyStartsWith (chars ("ublic:")) line = true then false else p1

/-- Header of `class_template` (`\n.. cpp:class:: {name}\n\n{description}\n`). -/
def classHead : List Char := chars (".. cpp:class:: ")

/-- Header of `method_template`. -/
def methodHead : List Char := chars (".. cpp:function:: ")

/-- Header of `type_template`. -/
def typeHead : List Char := chars (".. cpp:type:: ")

/-- `template.format(name=..., description=...)` for the three templates, which
    share the shape `'\n' + header + name + '\n\n' + description + '\n'`. -/
def formatTemplate (head name desc : List Char) : List Char :=
  chars ("\n") ++ head ++ name ++ chars ("\n\n") ++ desc ++ chars ("\n")

/-- The emission loop: `for l in txt.splitlines(): out.write((' '*indent+l).rstrip()+'\n')`,
    modelled as the list of written lines (each without its final newline). -/
def emitLines (indent : Int) (txt : List Char) : List (List Char) :=
  (splitlines txt).map fun l => pyRStrip (spacesI indent ++ l)

/-- Line classification of `extract_file` on the sliced, rstripped, remapped
    line: comment caching, the class / typedef / template / function branches
    with their emissions, the partial-signature branch, and the fall-through
    that resets the buffer and clears the cache on a nonempty line. -/
def classify (st : ScanState) (line : List Char) : Option (ScanState × List (List Char)) :=
  if pyStartsWith (chars ("//")) (pyStrip line) = true ∨
     pyStartsWith (chars ("/*")) (pyStrip line) = true ∨
     pyStartsWith (chars (" *")) (pyStrip line) = true then
    some ({ st with cached_lines := st.cached_lines ++ [line] }, [])
  else if pyStartsWith (chars ("class")) line = true ∧ line.contains lbrace = true then
    let name0 := line.drop 6
    let name1 := if name0.contains lbrace = true then takeUntilChar lbrace name0 else name0
    let name := pyStrip (pyReplace (chars (";")) [] name1)
    (Formatter.comment st.cached_lines).map fun desc =>
      ({ indent := st.indent + 2,
         cached_lines := if line.isEmpty = true then st.cached_lines else [],
         pending_function := [], is_private := st.is_private },
       emitLines st.indent (formatTemplate classHead name desc))
  else if pyStartsWith (chars ("typedef")) line = true ∧ pyEndsWith (chars (";")) line = true then
    let name := pyStrip (pyReplace (chars (";")) [] (line.drop 8))
    (Formatter.comment st.cached_lines).map fun desc =>
      ({ indent := st.indent + 2,
         cached_lines := if line.isEmpty = true then st.cached_lines else [],
         pending_function := [], is_private := st.is_private },
       emitLines st.indent (formatTemplate typeHead name desc))
  else if pyStartsWith (chars ("template")) line = true ∧
          (line.contains '(' = true ∨ line.contains lbrace = true) then
    let name0 := if line.contains lbrace = true then takeUntilChar lbrace line else line
    let name1 := pyReplace (chars (";")) [] name0
    let name2 := pyReplace (chars ("> class ")) (chars ("> ")) name1
    let name3 := pyReplace (chars ("> struct ")) (chars ("> ")) name2
    let name := pyStrip name3
    (Formatter.comment st.cached_lines).map fun desc =>
      ({ indent := st.indent + 2,
         cached_lines := if line.isEmpty = true then st.cached_lines else [],
         pending_function := [], is_private := st.is_private },
       emitLines st.indent (formatTemplate classHead name desc))
  else if function_re_search (st.pending_function ++ pyStrip line) = true then
    let name0 := st.pending_function ++ pyStrip line
    let cached1 :=
      if containsSub (chars ("//")) name0 = true then
        st.cached_lines ++ [chars ("// ") ++ (partAfterSub (chars ("//")) name0).2]
      else st.cached_lines
    let name1 :=
      if containsSub (chars ("//")) name0 = true then (partAfterSub (chars ("//")) name0).1
      else name0
    let name2 := if name1.contains lbrace = true then takeUntilChar lbrace name1 else name1
    let name := pyStrip (pyReplace (chars (";")) [] name2)
    (Formatter.comment cached1).map fun desc =>
      ({ indent := st.indent,
         cached_lines := if line.isEmpty = true then cached1 else [],
         pending_function := [], is_private := st.is_private },
       emitLines st.indent (formatTemplate methodHead name desc))
  else if function_re_open_search line = true then
    some ({ st with pending_function := line ++ [' '] }, [])
  else
    some ({ st with
            pending_function := [],
            cached_lines := if line.isEmpty = true then st.cached_lines else [] }, [])

/-- One full iteration of `extract_file`'s loop on a raw input line:
    unwind the indent, slice the line, update visibility, skip when private,
    rstrip, remap through `special_cases`, then classify. -/
def stepLine (st : ScanState) (raw : List Char) : Option (ScanState × List (List Char)) :=
  let u := unwind raw st.indent st.is_private
  let line1 := pySliceFrom u.1 raw
  let priv := updateVisibility line1 u.2
  if priv = true then
    some ({ st with indent := u.1, is_private := priv }, [])
  else
    classify { st with indent := u.1, is_private := priv } (special_cases (pyRStrip line1))

/-- Folding `stepLine` over the input lines, concatenating the written output. -/
def runLines (st : ScanState) : List (List Char) → Option (ScanState × List (List Char))
  | [] => some (st, [])
  | l :: ls =>
    match stepLine st l with
    | none => none
    | some (st1, out1) =>
      match runLines st1 ls with
      | none => none
      | some (st2, out2) => some (st2, out1 ++ out2)

/-- Python `extract_file(in_file, out_file)`: the lines written for one input
    unit (the fixed rst header is written by `extract`, outside this function);
    `none` when a formatter call raises. -/
def extract_file (lines : List (List Char)) : Option (List (List Char)) :=
  (runLines ScanState.init lines).map fun r => r.2

/-- Modelled from the claim's words (C5): a replacement pass that removes only
    the FIRST occurrence of the pattern and leaves later occurrences in place;
    used only to compare against the source's `str.replace`. -/
def replaceFirst (p r : List Char) : List Char → List Char
  | [] => []
  | c :: cs =>
    if p ≠ [] ∧ p.isPrefixOf (c :: cs) = true then
      r ++ cs.drop (p.length - 1)
    else
      c :: replaceFirst p r cs

/-- Modelled from the claim's words (C5): Step 1 with each of the six marker
    patterns removed first-occurrence-only, in the source's fixed order. -/
def strip_comment_tags_first (l : List Char) : List Char :=
  replaceFirst (chars (" *")) []
    (replaceFirst (chars (" * ")) []
      (replaceFirst (chars ("/*")) []
        (replaceFirst (chars ("/* ")) []
          (replaceFirst (chars ("//")) []
            (replaceFirst (chars ("// ")) [] l)))))

/-- Join pieces, interleaving `r` between consecutive pieces. -/
def joinWith (r : List Char) : List (List Char) → List Char
  | [] => []
  | [x] => x
  | x :: y :: t => x ++ r ++ joinWith r (y :: t)

/-- Split a text at every left-to-right non-overlapping occurrence of `p`
    (fuelled like `pyReplaceFuel`; `fuel = l.length` suffices). -/
def splitOnSubFuel (p : List Char) : Nat → List Char → List (List Char)
  | 0, l => [l]
  | _ + 1, [] => [[]]
  | n + 1, c :: cs =>
    if p ≠ [] ∧ p.isPrefixOf (c :: cs) = true then
      [] :: splitOnSubFuel p n (cs.drop (p.length - 1))
    else
      match splitOnSubFuel p n cs with
      | [] => [[c]]
      | h :: t => (c :: h) :: t

/-- Independent formulation of a global replacement pass, following the amended
    claim's words for C5: split the line at every occurrence of the marker and
    rejoin the pieces with the replacement. -/
def replaceAllSpec (p r l : List Char) : List Char :=
  joinWith r (splitOnSubFuel p l.length l)

/-- Step 1 reformulated with `replaceAllSpec` (same six patterns, same order). -/
def strip_comment_tags_global (l : List Char) : List Char :=
  replaceAllSpec (chars (" *")) []
    (replaceAllSpec (chars (" * ")) []
      (replaceAllSpec (chars ("/*")) []
        (replaceAllSpec (chars ("/* ")) []
          (replaceAllSpec (chars ("//")) []
            (replaceAllSpec (chars ("// ")) [] l)))))

/-- No occurrence of any of the six marker substrings of Step 1. -/
def noCommentTags (l : List Char) : Bool :=
  !(containsSub (chars ("// ")) l) && !(containsSub (chars ("//")) l) &&
  !(containsSub (chars ("/* ")) l) && !(containsSub (chars ("/*")) l) &&
  !(containsSub (chars (" * ")) l) && !(containsSub (chars (" *")) l)

theorem containsSub_cons (p : List Char) (c : Char) (cs : List Char) :
    containsSub p (c :: cs) = (p.isPrefixOf (c :: cs) || containsSub p cs) := by
  simp [containsSub, List.tails_cons]

theorem pyReplaceFuel_not_contains (p r : List Char) :
    ∀ (n : Nat) (l : List Char), containsSub p l = false → pyReplaceFuel p r n l = l := by
  intro n
  induction n with
  | zero => intro l h; rfl
  | succ n ih =>
    intro l h
    cases l with
    | nil => rfl
    | cons c cs =>
      rw [containsSub_cons, Bool.or_eq_false_iff] at h
      simp only [pyReplaceFuel]
      rw [if_neg, ih cs h.2]
      rintro ⟨-, hpre⟩
      rw [h.1] at hpre
      exact Bool.false_ne_true hpre

theorem pyReplace_not_contains (p r l : List Char) (h : containsSub p l = false) :
    pyReplace p r l = l :=
  pyReplaceFuel_not_contains p r l.length l h

theorem splitOnSubFuel_ne_nil (p : List Char) :
    ∀ (n : Nat) (l : List Char), splitOnSubFuel p n l ≠ [] := by
  intro n l
  match n, l with
  | 0, l => simp [splitOnSubFuel]
  | n + 1, [] => simp [splitOnSubFuel]
  | n + 1, c :: cs =>
    simp only [splitOnSubFuel]
    split
    · simp
    · split <;> simp

theorem pyReplaceFuel_eq_split (p r : List Char) :
    ∀ (n : Nat) (l : List Char), pyReplaceFuel p r n l = joinWith r (splitOnSubFuel p n l) := by
  intro n
  induction n with
  | zero => intro l; rfl
  | succ n ih =>
    intro l
    cases l with
    | nil => rfl
    | cons c cs =>
      simp only [pyReplaceFuel, splitOnSubFuel]
      by_cases hc : p ≠ [] ∧ p.isPrefixOf (c :: cs) = true
      · rw [if_pos hc, if_pos hc, ih]
        cases hs : splitOnSubFuel p n (cs.drop (p.length - 1)) with
        | nil => exact absurd hs (splitOnSubFuel_ne_nil p n _)
        | cons h t => simp [joinWith]
      · rw [if_neg hc, if_neg hc, ih]
        cases hs : splitOnSubFuel p n cs with
        | nil => exact absurd hs (splitOnSubFuel_ne_nil p n cs)
        | cons h t =>
          cases t with
          | nil => simp [joinWith]
          | cons y t2 => simp [joinWith]

theorem pyReplace_eq_replaceAllSpec (p r l : List Char) :
    pyReplace p r l = replaceAllSpec p r l :=
  pyReplaceFuel_eq_split p r l.length l

theorem dropWhile_append_single (p : Char → Bool) (c : Char) (hc : p c = false) :
    ∀ xs : List Char, List.dropWhile p (xs ++ [c]) = List.dropWhile p xs ++ [c] := by
  intro xs
  induction xs with
  | nil => simp [List.dropWhile, hc]
  | cons x xs ih =>
    by_cases hx : p x = true
    · simp [List.dropWhile_cons, hx, ih]
    · rw [Bool.not_eq_true] at hx
      simp [List.dropWhile_cons, hx]

theorem pyRStrip_cons (c : Char) (t : List Char) (hc : pySpace c = false) :
    pyRStrip (c :: t) = c :: pyRStrip t := by
  unfold pyRStrip
  rw [List.reverse_cons, dropWhile_append_single pySpace c hc, List.reverse_append]
  simp

theorem pyStrip_cons (c : Char) (t : List Char) (hc : pySpace c = false) :
    pyStrip (c :: t) = c :: pyRStrip t := by
  unfold pyStrip pyLStrip
  rw [List.dropWhile_cons, if_neg]
  · exact pyRStrip_cons c t hc
  · rw [hc]; exact Bool.false_ne_true

theorem pyStartsWith_cons_ex (a : Char) (p l : List Char)
    (h : pyStartsWith (a :: p) l = true) : ∃ t, l = a :: t := by
  cases l with
  | nil => simp [pyStartsWith, List.isPrefixOf] at h
  | cons b bs =>
    refine ⟨bs, ?_⟩
    simp only [pyStartsWith, List.isPrefixOf, Bool.and_eq_true, beq_iff_eq] at h
    rw [h.1]

theorem not_pyStartsWith_head (a b : Char) (p t : List Char) (hab : (a == b) = false) :
    pyStartsWith (a :: p) (b :: t) = false := by
  simp [pyStartsWith, List.isPrefixOf, hab]

theorem unwindAux_inv (raw : List Char) :
    ∀ (n : Nat) (i : Int) (p : Bool), 0 ≤ i → i % 2 = 0 →
      0 ≤ (unwindAux raw n i p).1 ∧ (unwindAux raw n i p).1 % 2 = 0 := by
  intro n
  induction n with
  | zero => intro i p h1 h2; exact ⟨h1, h2⟩
  | succ n ih =>
    intro i p h1 h2
    simp only [unwindAux]
    by_cases hc : unwindCond raw i
    · rw [if_pos hc]
      have hi : i ≠ 0 := hc.2.1
      exact ih (i - 2) false (by omega) (by omega)
    · rw [if_neg hc]
      exact ⟨h1, h2⟩

theorem classify_indent (st : ScanState) (line : List Char) (st2 : ScanState)
    (out : List (List Char)) (h : classify st line = some (st2, out)) :
    st2.indent = st.indent ∨ st2.indent = st.indent + 2 := by
  simp only [classify] at h
  split_ifs at h <;>
  · first
    | (rw [Option.map_eq_some'] at h
       obtain ⟨d, -, hf⟩ := h
       simp only [Prod.mk.injEq] at hf
       obtain ⟨hst, -⟩ := hf
       rw [← hst]
       first | exact Or.inl rfl | exact Or.inr rfl)
    | (simp only [Option.some.injEq, Prod.mk.injEq] at h
       obtain ⟨hst, -⟩ := h
       rw [← hst]
       exact Or.inl rfl)

theorem stepLine_inv (st : ScanState) (raw : List Char) (st2 : ScanState)
    (out : List (List Char)) (h : stepLine st raw = some (st2, out))
    (h1 : 0 ≤ st.indent) (h2 : st.indent % 2 = 0) :
    0 ≤ st2.indent ∧ st2.indent % 2 = 0 := by
  have hu := unwindAux_inv raw st.indent.toNat st.indent st.is_private h1 h2
  obtain ⟨ha, hb⟩ := hu
  simp only [stepLine] at h
  split_ifs at h with hp
  · simp only [Option.some.injEq, Prod.mk.injEq] at h
    obtain ⟨hst, -⟩ := h
    rw [← hst]
    exact ⟨ha, hb⟩
  · rcases classify_indent _ _ _ _ h with hEq | hEq
    · rw [hEq]
      exact ⟨ha, hb⟩
    · rw [hEq]
      refine ⟨?_, ?_⟩
      · show 0 ≤ (unwindAux raw st.indent.toNat st.indent st.is_private).1 + 2
        omega
      · show ((unwindAux raw st.indent.toNat st.indent st.is_private).1 + 2) % 2 = 0
        omega

theorem runLines_inv :
    ∀ (lines : List (List Char)) (st0 st2 : ScanState) (out : List (List Char)),
      0 ≤ st0.indent → st0.indent % 2 = 0 →
      runLines st0 lines = some (st2, out) →
      0 ≤ st2.indent ∧ st2.indent % 2 = 0 := by
  intro lines
  induction lines with
  | nil =>
    intro st0 st2 out h1 h2 h
    simp only [runLines, Option.some.injEq, Prod.mk.injEq] at h
    obtain ⟨hst, -⟩ := h
    rw [← hst]
    exact ⟨h1, h2⟩
  | cons l ls ih =>
    intro st0 st2 out h1 h2 h
    cases hs : stepLine st0 l with
    | none => simp [runLines, hs] at h
    | some r =>
      obtain ⟨st1, out1⟩ := r
      cases hr : runLines st1 ls with
      | none => simp [runLines, hs, hr] at h
      | some r2 =>
        obtain ⟨stA, outA⟩ := r2
        simp only [runLines, hs, hr, Option.some.injEq, Prod.mk.injEq] at h
        obtain ⟨hst, -⟩ := h
        have hinv1 := stepLine_inv st0 l st1 out1 hs h1 h2
        have hres := ih st1 stA outA hinv1.1 hinv1.2 hr
        rw [← hst]
        exact hres

/-- C1: the claim says the comment/detect_block pass always produces output and
    never fails; on the code this is wrong — a comment block whose first
    stripped line ends with a semicolon and lacks two leading spaces makes
    `detect_block` read `processed[-3]` with only one processed line, raising
    `IndexError` (modelled as `none`), and the error propagates through a whole
    `extract_file` run. -/
theorem C1_comment_raises :
    Formatter.comment [chars ("// x;")] = none ∧
    extract_file [chars ("// x;"), chars ("class Foo \x7b")] = none := by
  constructor
  · decide
  · decide

/-- C2 counterexample: on input `typedef int MyInt;` the emitted header line is
    `.. cpp:type:: int MyInt` (the name keeps the aliased type), so the output
    contains `.. cpp:type:: MyInt` neither as a line nor as a substring. -/
theorem C2_counterexample :
    extract_file [chars ("typedef int MyInt;")] =
      some [chars (""), chars (".. cpp:type:: int MyInt"), chars (""), chars ("")] ∧
    (chars (".. cpp:type:: MyInt")) ∉
      [chars (""), chars (".. cpp:type:: int MyInt"), chars (""), chars ("")] ∧
    containsSub (chars (".. cpp:type:: MyInt"))
      (joinNl [chars (""), chars (".. cpp:type:: int MyInt"), chars (""), chars ("")]) =
      false := by
  refine ⟨by decide, by decide, by decide⟩

/-- C2 amended: for the single input line `typedef int MyInt;` the scanner's
    output contains the header line `.. cpp:type:: int MyInt`. -/
theorem C2_amended_thm :
    ((extract_file [chars ("typedef int MyInt;")]).getD []).contains
      (chars (".. cpp:type:: int MyInt")) = true := by decide

/-- C3 counterexample: the continuation line ` * more text` is not appended to
    the cached comment lines — its both-sides-stripped text `* more text` does
    not start with any of `//`, `/*`, ` *` — and, being a nonempty non-comment
    line, it clears a previously cached comment. -/
theorem C3_counterexample :
    stepLine ({ indent := 0, cached_lines := [chars ("// hi")],
                pending_function := [], is_private := false }) (chars (" * more text")) =
      some ({ indent := 0, cached_lines := [], pending_function := [],
              is_private := false }, []) := by
  decide

/-- C3 amended: a line whose stripped text starts with `//` or `/*` is appended
    to the cached comment lines and processing moves on with no emission and
    the partial-signature buffer untouched (the ` *` tag of `COMMENT_TAGS` can
    never match a stripped line, since stripping removes leading whitespace). -/
theorem C3_amended_thm (st : ScanState) (line : List Char)
    (h : pyStartsWith (chars ("//")) (pyStrip line) = true ∨
         pyStartsWith (chars ("/*")) (pyStrip line) = true) :
    classify st line = some ({ st with cached_lines := st.cached_lines ++ [line] }, []) := by
  unfold classify
  rw [if_pos (h.elim Or.inl (fun h2 => Or.inr (Or.inl h2)))]

/-- C3 amended, witness at a concrete comment line. -/
theorem C3_amended_witness :
    classify ScanState.init (chars ("// hi")) =
      some ({ ScanState.init with
              cached_lines := ScanState.init.cached_lines ++ [chars ("// hi")] }, []) :=
  C3_amended_thm ScanState.init (chars ("// hi")) (Or.inl (by decide))

/-- C4 counterexample: marker stripping is not idempotent — `/ * /` strips to
    `//` (removing ` * ` creates a new marker), which strips again to the empty
    line. -/
theorem C4_counterexample :
    Formatter.strip_comment_tags (Formatter.strip_comment_tags (chars ("/ * /"))) ≠
      Formatter.strip_comment_tags (chars ("/ * /")) := by decide

/-- C4 amended: marker stripping is idempotent on every line whose stripped
    output contains no occurrence of the six marker substrings. -/
theorem C4_amended_thm (l : List Char)
    (h : noCommentTags (Formatter.strip_comment_tags l) = true) :
    Formatter.strip_comment_tags (Formatter.strip_comment_tags l) =
      Formatter.strip_comment_tags l := by
  simp only [noCommentTags, Bool.and_eq_true, Bool.not_eq_true'] at h
  obtain ⟨⟨⟨⟨⟨hA, hB⟩, hC⟩, hD⟩, hE⟩, hF⟩ := h
  generalize Formatter.strip_comment_tags l = x at hA hB hC hD hE hF ⊢
  unfold Formatter.strip_comment_tags
  rw [pyReplace_not_contains _ _ _ hA, pyReplace_not_contains _ _ _ hB,
      pyReplace_not_contains _ _ _ hC, pyReplace_not_contains _ _ _ hD,
      pyReplace_not_contains _ _ _ hE, pyReplace_not_contains _ _ _ hF]

/-- C4 amended, witness at a concrete line. -/
theorem C4_amended_witness :
    noCommentTags (Formatter.strip_comment_tags (chars ("// hello"))) = true ∧
    Formatter.strip_comment_tags (Formatter.strip_comment_tags (chars ("// hello"))) =
      Formatter.strip_comment_tags (chars ("// hello")) :=
  ⟨by decide, C4_amended_thm (chars ("// hello")) (by decide)⟩

/-- C5 counterexample: Step 1 removes ALL occurrences of each marker, not only
    the first — on `// a // b` the code yields `a b`, while the claimed
    first-occurrence-only procedure yields `a  b`. -/
theorem C5_counterexample :
    Formatter.strip_comment_tags (chars ("// a // b")) = chars ("a b") ∧
    strip_comment_tags_first (chars ("// a // b")) = chars ("a  b") ∧
    Formatter.strip_comment_tags (chars ("// a // b")) ≠
      strip_comment_tags_first (chars ("// a // b")) := by
  refine ⟨by decide, by decide, by decide⟩

/-- C5 amended: each of the six passes of Step 1 removes every left-to-right
    non-overlapping occurrence of its marker, in the source's fixed order —
    proved by agreement with the independent split-and-rejoin formulation. -/
theorem C5_amended_thm (l : List Char) :
    Formatter.strip_comment_tags l = strip_comment_tags_global l := by
  unfold Formatter.strip_comment_tags strip_comment_tags_global
  simp only [pyReplace_eq_replaceAllSpec]

/-- C6 counterexample: on the stripped lines `- item one`, `- item two`, blank,
    `detect_block` DOES insert a blank separator between the two item lines
    (the second bullet ends and restarts the list), and list mode is still
    active after the blank line. -/
theorem C6_counterexample :
    Formatter.detect_block [chars ("- item one"), chars ("- item two"), chars ("")] =
      some [chars ("- item one"), chars (""), chars ("- item two"), chars ("")] ∧
    Formatter.detect_block [chars ("- item one"), chars ("- item two"), chars ("")] ≠
      some [chars ("- item one"), chars ("- item two"), chars ("")] ∧
    (Formatter.detectRun { inside_block := false, inside_list := false, rev := [] }
        [chars ("- item one"), chars ("- item two"), chars ("")]).map
      Formatter.DBState.inside_list = some true := by
  refine ⟨by decide, by decide, by decide⟩

/-- C6 amended: for the comment lines `// - item one`, `// - item two` and a
    blank comment line, the formatted body contains an inserted blank separator
    between the two item lines, and the blank line continues (does not end)
    list mode. -/
theorem C6_amended_thm :
    Formatter.comment [chars ("// - item one"), chars ("// - item two"), chars ("//")] =
      some (chars ("  - item one\n  \n  - item two\n  ")) := by decide

/-- C7 counterexample: a stripped line beginning exactly with `private:` does
    NOT set visibility to non-public — the scanner's markers are the clipped
    strings `rivate:`/`rotected:`/`ublic:`. -/
theorem C7_counterexample :
    (stepLine ScanState.init (chars ("private:"))).map (fun r => r.1.is_private) =
      some false := by decide

/-- C7 amended: after stripping the indent prefix, a line beginning with
    `rivate:` or `rotected:` sets visibility to non-public and a line beginning
    with `ublic:` sets it to public (the indent slice is expected to have
    consumed the first letter of the section label). -/
theorem C7_amended_thm :
    (∀ (l : List Char) (p : Bool),
        pyStartsWith (chars ("rivate:")) l = true ∨
        pyStartsWith (chars ("rotected:")) l = true →
        updateVisibility l p = true) ∧
    (∀ (l : List Char) (p : Bool),
        pyStartsWith (chars ("ublic:")) l = true → updateVisibility l p = false) := by
  constructor
  · intro l p h
    obtain ⟨t, rfl⟩ : ∃ t, l = 'r' :: t := by
      rcases h with h | h
      · rw [show chars ("rivate:") = 'r' :: chars ("ivate:") from rfl] at h
        exact pyStartsWith_cons_ex 'r' _ _ h
      · rw [show chars ("rotected:") = 'r' :: chars ("otected:") from rfl] at h
        exact pyStartsWith_cons_ex 'r' _ _ h
    simp only [updateVisibility]
    rw [if_pos h, if_neg]
    rw [show chars ("ublic:") = 'u' :: chars ("blic:") from rfl,
        not_pyStartsWith_head 'u' 'r' _ _ (by decide)]
    exact Bool.false_ne_true
  · intro l p h
    simp only [updateVisibility]
    rw [if_pos h]

/-- C7 amended, witness at concrete section-label lines. -/
theorem C7_amended_witness :
    updateVisibility (chars ("rivate: int x;")) false = true ∧
    updateVisibility (chars ("ublic:")) true = false :=
  ⟨C7_amended_thm.1 (chars ("rivate: int x;")) false (Or.inl (by decide)),
   C7_amended_thm.2 (chars ("ublic:")) true (by decide)⟩

/-- C8: after processing any sequence of input lines from the initial scan
    state, the tracked indent level is a non-negative even integer (it starts
    at 0, each change is a decrement by 2 guarded by the indent being nonzero
    or an increment by 2). -/
theorem C8_indent_invariant (lines : List (List Char)) (st : ScanState)
    (out : List (List Char)) (h : runLines ScanState.init lines = some (st, out)) :
    0 ≤ st.indent ∧ st.indent % 2 = 0 :=
  runLines_inv lines ScanState.init st out (by decide) (by decide) h

/-- C8 witness: one concrete run (`class Foo {`) ends with indent 2, which the
    invariant confirms is non-negative and even. -/
theorem C8_indent_invariant_witness :
    0 ≤ ({ indent := 2, cached_lines := [], pending_function := [],
           is_private := false } : ScanState).indent ∧
    ({ indent := 2, cached_lines := [], pending_function := [],
       is_private := false } : ScanState).indent % 2 = 0 :=
  C8_indent_invariant [chars ("class Foo \x7b")]
    ({ indent := 2, cached_lines := [], pending_function := [], is_private := false })
    [chars (""), chars (".. cpp:class:: Foo"), chars (""), chars ("")] (by decide)

/-- C9: for a raw line of length at most 1 the unwind loop's body never runs,
    so the tracked indent level and the visibility flag are left unchanged by
    it. -/
theorem C9_unwind_skip (raw : List Char) (i : Int) (p : Bool)
    (h : raw.length ≤ 1) : unwind raw i p = (i, p) := by
  unfold unwind
  cases hn : i.toNat with
  | zero => rfl
  | succ n =>
    simp only [unwindAux]
    rw [if_neg]
    intro hc
    exact absurd hc.1 (by omega)

/-- C9 witness: a one-character line with a positive indent and the private
    flag set. -/
theorem C9_unwind_skip_witness : unwind (chars ("x")) 4 true = (4, true) :=
  C9_unwind_skip (chars ("x")) 4 true (by decide)

/-- C10: every line reaching classification that starts with the raw
    five-character prefix `class` (also as a prefix of a longer identifier) and
    contains a left brace is emitted as a class entry whose name is the text
    from character index 6 up to the first brace, with every semicolon removed
    and then trimmed. -/
theorem C10_class_branch (st : ScanState) (line : List Char)
    (h1 : pyStartsWith (chars ("class")) line = true)
    (h2 : line.contains lbrace = true) :
    classify st line =
      (Formatter.comment st.cached_lines).map fun desc =>
        ({ indent := st.indent + 2,
           cached_lines := if line.isEmpty = true then st.cached_lines else [],
           pending_function := [], is_private := st.is_private },
         emitLines st.indent (formatTemplate classHead
           (pyStrip (pyReplace (chars (";")) []
             (if (line.drop 6).contains lbrace = true then
                takeUntilChar lbrace (line.drop 6)
              else line.drop 6))) desc)) := by
  obtain ⟨t, rfl⟩ : ∃ t, line = 'c' :: t := by
    have h1c := h1
    rw [show chars ("class") = 'c' :: chars ("lass") from rfl] at h1c
    exact pyStartsWith_cons_ex 'c' _ _ h1c
  have hno : ¬ (pyStartsWith (chars ("//")) (pyStrip ('c' :: t)) = true ∨
                pyStartsWith (chars ("/*")) (pyStrip ('c' :: t)) = true ∨
                pyStartsWith (chars (" *")) (pyStrip ('c' :: t)) = true) := by
    rw [pyStrip_cons 'c' t (by decide)]
    rintro (hA | hA | hA)
    · rw [show chars ("//") = '/' :: chars ("/") from rfl,
          not_pyStartsWith_head '/' 'c' _ _ (by decide)] at hA
      exact Bool.false_ne_true hA
    · rw [show chars ("/*") = '/' :: chars ("*") from rfl,
          not_pyStartsWith_head '/' 'c' _ _ (by decide)] at hA
      exact Bool.false_ne_true hA
    · rw [show chars (" *") = ' ' :: chars ("*") from rfl,
          not_pyStartsWith_head ' ' 'c' _ _ (by decide)] at hA
      exact Bool.false_ne_true hA
  unfold classify
  rw [if_neg hno, if_pos ⟨h1, h2⟩]

/-- C10 witness: the longer-identifier line `classify x {` is emitted as a
    class entry named `fy x`. -/
theorem C10_class_branch_witness :
    classify ScanState.init (chars ("classify x \x7b")) =
      (Formatter.comment ScanState.init.cached_lines).map fun desc =>
        ({ indent := ScanState.init.indent + 2,
           cached_lines := if (chars ("classify x \x7b")).isEmpty = true then
                             ScanState.init.cached_lines
                           else [],
           pending_function := [], is_private := ScanState.init.is_private },
         emitLines ScanState.init.indent (formatTemplate classHead
           (pyStrip (pyReplace (chars (";")) []
             (if ((chars ("classify x \x7b")).drop 6).contains lbrace = true then
                takeUntilChar lbrace ((chars ("classify x \x7b")).drop 6)
              else (chars ("classify x \x7b")).drop 6))) desc)) :=
  C10_class_branch ScanState.init (chars ("classify x \x7b")) (by decide) (by decide)
